import Mathlib

/-!
Shallow embedding of `setup_workspace.py` (a VS Code Python workspace setup
script) and verification of claims about it.

Conventions of the embedding:
  * file contents are `String`s; an absent file is `none : Option String`;
  * JSON documents are values of the inductive `Json` below; a JSON file is
    `Option (Option Json)`: `none` = file absent, `some none` = file present
    but unreadable/unparseable (the script catches that and treats it as
    `\x7b\x7d`), `some (some j)` = file parses to `j`;
  * steps that can raise in Python return `Except String _` or `Option _`
    (`none` standing for an uncaught runtime error);
  * Python's `str.splitlines` is modelled for the terminators `\n`, `\r`,
    `\r\n` (exotic Unicode line breaks are not modelled), `str.strip` for
    ASCII whitespace, `str.lower` for ASCII letters.
-/

/-- Operating-system family, the result of `platform.system()`. -/
inductive OS where
  | windows
  | macos
  | linux
  | other
deriving DecidableEq

/-- JSON values (as produced by `json.loads` / consumed by `json.dumps`).
Objects are ordered key/value lists, matching Python `dict` insertion
order, which `json.dumps` preserves. -/
inductive Json where
  | null
  | bool (b : Bool)
  | num (n : Int)
  | str (s : String)
  | arr (xs : List Json)
  | obj (fields : List (String × Json))

/-! ### Character-level models of Python string primitives -/

/-- Python `str.isspace` characters in the ASCII range
(`\t`, `\n`, `\x0b`, `\x0c`, `\r`, space): the characters removed by
`str.strip()`. -/
def isPyWS (c : Char) : Bool :=
  c = ' ' || c = '\t' || c = '\n' || c = '\x0b' || c = '\x0c' || c = '\r'

/-- Strip characters satisfying `p` from both ends of a character list:
the character-level model of Python `str.strip()`. -/
def stripChars (p : Char → Bool) (l : List Char) : List Char :=
  ((l.dropWhile p).reverse.dropWhile p).reverse

/-- Python `s.strip()`. -/
def pyStrip (s : String) : String :=
  String.mk (stripChars isPyWS s.data)

/-- Python `s.splitlines()` on a character list, handling the terminators
`\n`, `\r\n` and `\r`: no entry for a trailing terminator, and the
terminators themselves are not part of any line. -/
def splitLinesChars : List Char → List (List Char)
  | [] => []
  | c :: rest =>
    if c = '\n' then [] :: splitLinesChars rest
    else if c = '\r' then
      match rest with
      | '\n' :: r => [] :: splitLinesChars r
      | r => [] :: splitLinesChars r
    else
      match splitLinesChars rest with
      | [] => [[c]]
      | line :: ls => (c :: line) :: ls

/-- Python `s.splitlines()`. -/
def splitlines (s : String) : List String :=
  (splitLinesChars s.data).map String.mk

/-- Python `"\n".join(l)`. -/
def joinNL : List String → String
  | [] => ""
  | [x] => x
  | x :: xs => x ++ "\n" ++ joinNL xs

/-- The prefix of `l` up to (excluding) the first occurrence of the
non-empty separator `sep`: character-level model of
Python `s.split(sep, 1)[0]`. -/
def cutBeforeChars (sep : List Char) : List Char → List Char
  | [] => []
  | c :: rest =>
    if sep.isPrefixOf (c :: rest) then []
    else c :: cutBeforeChars sep rest

/-- Python `s.split(sep, 1)[0]` for a non-empty separator. -/
def cutBefore (sep s : String) : String :=
  String.mk (cutBeforeChars sep.data s.data)

/-- Python `s.lower()` (ASCII letters). -/
def pyLower (s : String) : String :=
  String.mk (s.data.map Char.toLower)

/-- Python `s.replace("_", "-")` (single-character pattern, so a
character-wise map). -/
def pyReplaceUnderscore (s : String) : String :=
  String.mk (s.data.map (fun c => if c = '_' then '-' else c))

/-- Python `s.startswith(pre)`. -/
def pyStartsWith (pre s : String) : Bool :=
  pre.data.isPrefixOf s.data

/-- Python truthiness of a string: non-empty. -/
def pyTruthy (s : String) : Bool :=
  s != ""

/-! ### `clone_repo` and `detect_repo_root` -/

/-- Outcome of `clone_repo`: whether `git clone` was invoked, the messages
printed, and the returned destination directory. -/
structure CloneOutcome where
  ranClone : Bool
  messages : List String
  result : String
deriving DecidableEq

/-- `clone_repo(repo_ssh, dest_dir)`.  `haveGit` models `have_git()`,
`destExists` models `dest_dir.exists()`, `destNonempty` models
`any(dest_dir.iterdir())`.  `sys.exit(msg)` is `Except.error msg`. -/
def clone_repo (haveGit : Bool) (repoSsh dest : String)
    (destExists destNonempty : Bool) : Except String CloneOutcome :=
  if !haveGit then
    .error "Error: 'git' not found on PATH. Please install Git and try again."
  else if destExists && destNonempty then
    .ok { ranClone := false
          messages := ["⚠️ Destination '" ++ dest ++
            "' already exists and is not empty; skipping clone."]
          result := dest }
  else
    .ok { ranClone := true
          messages := ["→ Running: git clone " ++ repoSsh ++ " " ++ dest]
          result := dest }

/-- A filesystem path as its list of components from the root;
`Path.parent`, with the root being its own parent. -/
def parentDir (p : List String) : List String :=
  p.dropLast

/-- The `k`-th ancestor of `p` (`parentIter p 0 = p`). -/
def parentIter (p : List String) : Nat → List String
  | 0 => p
  | k + 1 => parentDir (parentIter p k)

/-- The loop body of `detect_repo_root`, with the remaining iteration
count of `range(6)` as fuel: check the current directory for a `.git`
directory (`hasGit`), stop at the filesystem root, else move to the
parent. -/
def detectAux (hasGit : List String → Bool) : Nat → List String → Option (List String)
  | 0, _ => none
  | n + 1, p =>
    if hasGit p then some p
    else if parentDir p = p then none
    else detectAux hasGit n (parentDir p)

/-- `detect_repo_root(start)`: examine the starting directory and at most
5 ancestors (6 directories in total, `for _ in range(6)`). -/
def detect_repo_root (hasGit : List String → Bool) (start : List String) :
    Option (List String) :=
  detectAux hasGit 6 start

/-- The repository-root resolution in `main()` when `--repo` is not given:
a failed detection is a fatal exit with a message. -/
def mainRepoRoot (hasGit : List String → Bool) (cwd : List String) :
    Except String (List String) :=
  match detect_repo_root hasGit cwd with
  | some r => .ok r
  | none => .error "Error: Not inside a Git repository and no --repo was provided."

/-! ### `ensure_secrets` and `copy_initial_conditions` -/

/-- `ensure_secrets(repo_root)` as a transform of the content of
`secrets.toml` (`none` = absent); returns the new content and the printed
message. -/
def ensure_secrets (c : Option String) : String × String :=
  match c with
  | none => ("", "✅ Created empty secrets.toml")
  | some s => (s, "ℹ️ secrets.toml already exists; leaving it as-is.")

/-- `shutil.copy2(src, dst)`: copies the source content; raises
(`FileNotFoundError`) if the source is absent. -/
def copy2 (srcC : Option String) : Except String String :=
  match srcC with
  | some s => .ok s
  | none => .error "FileNotFoundError"

/-- `copy_initial_conditions(repo_root)` as a transform of the contents of
`initial_conditions_default.yaml` (source) and `initial_conditions.yaml`
(destination); returns the new destination content and the printed
message, or an uncaught exception. -/
def copy_initial_conditions (srcC dstC : Option String) :
    Except String ((Option String) × String) :=
  match srcC with
  | some _ =>
    match dstC with
    | none =>
      match copy2 srcC with
      | .ok content =>
        .ok (some content,
          "✅ Copied initial_conditions_default.yaml → initial_conditions.yaml")
      | .error e => .error e
    | some d =>
      .ok (some d, "ℹ️ initial_conditions.yaml already exists; leaving it as-is.")
  | none =>
    .ok (dstC, "ℹ️ initial_conditions_default.yaml not found; skipping copy.")

/-! ### Requirements parsing and interpreter selection -/

/-- The fixed heavy-package set `HEAVY_PKGS`. -/
def HEAVY_PKGS : List String :=
  ["numpy", "pandas", "scipy", "matplotlib", "scikit-learn", "torch", "tensorflow"]

/-- The name extraction applied to one (already stripped) requirements
line: drop an environment marker (`;`), then cut at each version operator
and at extras (`[`), strip, lowercase, and replace `_` by `-`. -/
def extractName (line : String) : String :=
  let x := cutBefore ";" line
  let n1 := cutBefore "==" x
  let n2 := cutBefore ">=" n1
  let n3 := cutBefore "<=" n2
  let n4 := cutBefore "!=" n3
  let n5 := cutBefore "~=" n4
  let n6 := cutBefore "[" n5
  pyReplaceUnderscore (pyLower (pyStrip n6))

/-- `parse_requirements_for_heavy(req_path)`: `false` when the manifest is
absent (or unreadable); otherwise scan the stripped, non-empty,
non-comment lines for a heavy package name. -/
def parse_requirements_for_heavy (content : Option String) : Bool :=
  match content with
  | none => false
  | some text =>
    let lines := ((splitlines text).map pyStrip).filter
      (fun l => pyTruthy l && !(pyStartsWith "#" l))
    lines.any (fun line => HEAVY_PKGS.contains (extractName line))

/-- The target `major.minor` decision at the start of
`create_venv_and_install`: an explicit spec starting with `"3."` wins,
else the pin `"3.11"` when the manifest is heavy, else the version of the
running interpreter. -/
def decideTargetVer (spec : Option String) (heavy : Bool) (hostVer : String) :
    String :=
  match spec with
  | some s =>
    if pyTruthy s && pyStartsWith "3." s then s
    else if heavy then "3.11" else hostVer
  | none => if heavy then "3.11" else hostVer

/-- How the virtual environment gets created: with a located interpreter
executable, through the Windows `py -<ver>` launcher, or from a freshly
downloaded portable CPython of the given micro version. -/
inductive VenvSource where
  | interpreter (path : String)
  | pyLauncher (ver : String)
  | portable (version : String)
deriving DecidableEq

/-- The interpreter-resolution logic of `create_venv_and_install` when no
virtual environment exists yet.  `pathExists` models `Path(spec).exists()`,
`whichExe` models `shutil.which`, `pyLauncherWorks ver` models a successful
`py -<ver> -V`. -/
def resolveVenvSource (os : OS) (spec : Option String)
    (pathExists : String → Bool) (whichExe : String → Option String)
    (pyLauncherWorks : String → Bool) (heavy : Bool) (hostVer : String) :
    VenvSource :=
  let targetVer := decideTargetVer spec heavy hostVer
  let explicitChoice : Option String :=
    match spec with
    | some s =>
      if pyTruthy s then (if pathExists s then some s else whichExe s)
      else none
    | none => none
  match explicitChoice with
  | some p => VenvSource.interpreter p
  | none =>
    if os = OS.windows then
      if pyLauncherWorks targetVer then VenvSource.pyLauncher targetVer
      else VenvSource.portable (targetVer ++ ".9")
    else
      match whichExe ("python" ++ targetVer) with
      | some p => VenvSource.interpreter p
      | none => VenvSource.portable (targetVer ++ ".9")

/-! ### `ensure_portable_python` -/

/-- The path separator used by `pathlib` on each OS family. -/
def pathSep (os : OS) : String :=
  match os with
  | OS.windows => "\\"
  | _ => "/"

/-- The expected portable-python executable path computed by
`ensure_portable_python`. -/
def portableCandidate (os : OS) (repoRoot version : String) : String :=
  let majorMinor := joinDot ((version.splitOn ".").take 2)
  let runtimeRoot := repoRoot ++ pathSep os ++ ".pythonrt" ++ pathSep os ++ majorMinor
  match os with
  | OS.windows => runtimeRoot ++ "\\python\\python.exe"
  | _ => runtimeRoot ++ "/python/bin/python3"
where
  /-- Python `".".join(l)`. -/
  joinDot : List String → String
    | [] => ""
    | [x] => x
    | x :: xs => x ++ "." ++ joinDot xs

/-- `ensure_portable_python(repo_root, version, tag)`.
`candidateExistsBefore` models the existence of the expected executable
before any download; `candidateExistsAfterExtract` models its existence
after downloading and extracting the archive.  Returns the executable
path together with whether a download happened, or the raised
`RuntimeError`. -/
def ensure_portable_python (os : OS) (repoRoot version : String)
    (candidateExistsBefore candidateExistsAfterExtract : Bool) :
    Except String (String × Bool) :=
  let candidate := portableCandidate os repoRoot version
  if candidateExistsBefore then
    .ok (candidate, false)
  else if candidateExistsAfterExtract then
    .ok (candidate, true)
  else
    .error "Portable Python extraction did not produce an executable at expected path."

/-! ### Python `dict` merge -/

/-- Python `{**e, **s}` on ordered key/value lists: keys of `e` keep their
position (with the value from `s` when the key also occurs there), keys
occurring only in `s` are appended in the order of `s`. -/
def pyDictMerge (e s : List (String × Json)) : List (String × Json) :=
  e.map (fun kv => (kv.1, (List.lookup kv.1 s).getD kv.2)) ++
    s.filter (fun kv => (List.lookup kv.1 e).isNone)

/-- Python `d.get(k, default)` on a `dict` as an ordered key/value list. -/
def pyGet (fs : List (String × Json)) (k : String) (d : Json) : Json :=
  (List.lookup k fs).getD d

/-! ### `write_vscode`: settings.json -/

/-- `python_in_venv(repo_root)`. -/
def python_in_venv (os : OS) (repoRoot : String) : String :=
  match os with
  | OS.windows => repoRoot ++ "\\.venv\\Scripts\\python.exe"
  | _ => repoRoot ++ "/.venv/bin/python"

/-- `term_env_windows` in `write_vscode`. -/
def termEnvWindows : Json :=
  Json.obj
    [("VIRTUAL_ENV", Json.str "$\x7bworkspaceFolder\x7d\\.venv"),
     ("PATH", Json.str "$\x7bworkspaceFolder\x7d\\.venv\\Scripts;$\x7benv:PATH\x7d")]

/-- `term_env_unix` in `write_vscode`. -/
def termEnvUnix : Json :=
  Json.obj
    [("VIRTUAL_ENV", Json.str "$\x7bworkspaceFolder\x7d/.venv"),
     ("PATH", Json.str "$\x7bworkspaceFolder\x7d/.venv/bin:$\x7benv:PATH\x7d")]

/-- The `settings` dict literal built by `write_vscode` (insertion order
preserved). -/
def vscodeSettings (os : OS) (repoRoot : String) : List (String × Json) :=
  [("github.copilot.enable",
      Json.obj [("*", Json.bool false), ("plaintext", Json.bool false),
                ("markdown", Json.bool false), ("scminput", Json.bool false)]),
   ("github.copilot.nextEditSuggestions.enabled", Json.bool false),
   ("editor.inlineSuggest.edits.allowCodeShifting", Json.str "never"),
   ("github.copilot.inlineSuggest.enable", Json.bool false),
   ("chat.commandCenter.enabled", Json.bool false),
   ("chat.agent.enabled", Json.bool false),
   ("chat.mcp.enabled", Json.bool false),
   ("github.copilot.chat.enable", Json.bool false),
   ("github.copilot.chat.codesearch.enabled", Json.bool false),
   ("github.copilot.chat.editor.temporalContext.enabled", Json.bool false),
   ("github.copilot.chat.edits.suggestRelatedFilesFromGitHistory", Json.bool false),
   ("github.copilot.chat.newWorkspaceCreation.enabled", Json.bool false),
   ("github.copilot.chat.startDebugging.enabled", Json.bool false),
   ("github.copilot.chat.copilotDebugCommand.enabled", Json.bool false),
   ("github.copilot.chat.generateTests.codeLens", Json.bool false),
   ("github.copilot.chat.setupTests.enabled", Json.bool false),
   ("github.copilot.chat.codeGeneration.useInstructionFiles", Json.bool false),
   ("chat.promptFiles", Json.bool false),
   ("chat.modeFilesLocations", Json.obj []),
   ("workbench.settings.showAISearchToggle", Json.bool false),
   ("search.searchView.semanticSearchBehavior", Json.str "manual"),
   ("python.defaultInterpreterPath",
      Json.str ((python_in_venv os repoRoot).replace repoRoot
        "$\x7bworkspaceFolder\x7d")),
   ("python.terminal.activateEnvironment", Json.bool true),
   ("terminal.integrated.env.windows", termEnvWindows),
   ("terminal.integrated.env.osx", termEnvUnix),
   ("terminal.integrated.env.linux", termEnvUnix)]

/-- The settings.json write of `write_vscode` as a transform of the parsed
file state (see the file-level conventions): absent or unparseable files
contribute an empty `existing`, an object is merged with `\x7b**existing,
**settings\x7d`, and a non-object top-level JSON value makes the dict
splat raise an uncaught `TypeError` (`none`). -/
def write_settings (c : Option (Option Json)) (s : List (String × Json)) :
    Option Json :=
  match c with
  | none => some (Json.obj s)
  | some none => some (Json.obj (pyDictMerge [] s))
  | some (some (Json.obj e)) => some (Json.obj (pyDictMerge e s))
  | some (some _) => none

/-! ### `write_extensions_json` -/

/-- `payload["recommendations"]`. -/
def payloadRecommendations : List String := ["ms-python.python"]

/-- `payload["unwantedRecommendations"]`. -/
def payloadUnwanted : List String := ["GitHub.copilot", "GitHub.copilot-chat"]

/-- Python `set(j)` for a JSON value, restricted to the shapes that do not
raise when subsequently unioned with a non-empty set of strings and
sorted: an array of strings yields its elements, a string yields its
characters, an object yields its keys; everything else raises
(`TypeError`), as does an array with a non-string element (unhashable, or
unorderable against strings at `sorted`). -/
def pyIterStrs : Json → Option (List String)
  | Json.arr xs => strListOf xs
  | Json.str s => some (s.data.map (fun ch => String.mk [ch]))
  | Json.obj fs => some (fs.map Prod.fst)
  | _ => none
where
  /-- Extract an all-string JSON array. -/
  strListOf : List Json → Option (List String)
    | [] => some []
    | Json.str s :: rest => (strListOf rest).map (s :: ·)
    | _ :: _ => none

/-- Code-point lexicographic comparison of character lists: the order
Python uses to compare and sort strings. -/
def charListLe : List Char → List Char → Bool
  | [], _ => true
  | _ :: _, [] => false
  | a :: as, b :: bs =>
    if a < b then true
    else if b < a then false
    else charListLe as bs

/-- Python `s1 <= s2` on strings. -/
def pyStrLe (a b : String) : Bool :=
  charListLe a.data b.data

/-- `pyStrLe` as a relation, for use with `List.insertionSort`. -/
def strLeRel (a b : String) : Prop :=
  pyStrLe a b = true

instance : DecidableRel strLeRel :=
  fun a b => instDecidableEqBool (pyStrLe a b) true

/-- Python `sorted(set(l))`: the ascending duplicate-free enumeration of
the members of `l` (string sorting is code-point lexicographic on both
sides). -/
def pySortedSet (l : List String) : List String :=
  List.insertionSort strLeRel l.dedup

/-- The union-and-sort core of `write_extensions_json`, applied to the
fields of the existing JSON object: `sorted(set(existing.get(k, [])) |
set(payload[k]))` for both keys (the set union is the member set of the
concatenation), written as a fresh two-field object. -/
def extensionsMerge (fs : List (String × Json)) : Option Json := do
  let unw ← pyIterStrs (pyGet fs "unwantedRecommendations" (Json.arr []))
  let rcs ← pyIterStrs (pyGet fs "recommendations" (Json.arr []))
  let unwSorted := pySortedSet (unw ++ payloadUnwanted)
  let recSorted := pySortedSet (rcs ++ payloadRecommendations)
  return Json.obj
    [("recommendations", Json.arr (recSorted.map Json.str)),
     ("unwantedRecommendations", Json.arr (unwSorted.map Json.str))]

/-- `write_extensions_json(vscode_dir)` as a transform of the parsed
extensions.json state: absent or unparseable files give `existing = \x7b\x7d`;
a parsed non-object makes `existing.get` raise (`none`). -/
def write_extensions (c : Option (Option Json)) : Option Json :=
  match c with
  | some (some (Json.obj fs)) => extensionsMerge fs
  | some (some _) => none
  | _ => extensionsMerge []

/-! ### launch.json and the launcher scripts -/

/-- The fields of the `launch` dict literal in `write_vscode`. -/
def launchFields : List (String × Json) :=
  [("version", Json.str "0.2.0"),
   ("configurations", Json.arr
     [Json.obj
       [("name", Json.str "Python: Current File"),
        ("type", Json.str "python"),
        ("request", Json.str "launch"),
        ("program", Json.str "$\x7bfile\x7d"),
        ("console", Json.str "integratedTerminal"),
        ("justMyCode", Json.bool true),
        ("env", Json.obj [("VIRTUAL_ENV", Json.str "$\x7bworkspaceFolder\x7d/.venv")])]])]

/-- The `launch` dict literal in `write_vscode`. -/
def launchJson : Json := Json.obj launchFields

/-- The launch.json write of `write_vscode`: an unconditional
`write_text(json.dumps(launch))`, never reading the existing file. -/
def write_launch (_existing : Option (Option Json)) : Json :=
  launchJson

/-- `sh_contents` in `write_secure_launchers`. -/
def code_secure_sh (repoRoot : String) : String :=
  "#!/usr/bin/env bash\n# Open VS Code with Copilot extensions disabled for THIS workspace\nexec code --disable-extension GitHub.copilot --disable-extension GitHub.copilot-chat \""
    ++ repoRoot ++ "\"\n"

/-- `ps1_contents` in `write_secure_launchers`. -/
def code_secure_ps1 (repoRoot : String) : String :=
  "# Open VS Code with Copilot extensions disabled for THIS workspace\n$workspace = \""
    ++ repoRoot
    ++ "\"\ncode --disable-extension GitHub.copilot --disable-extension GitHub.copilot-chat $workspace\n"

/-- The `tools/code_secure.sh` write: unconditional. -/
def write_launcher_sh (repoRoot : String) (_existing : Option String) : String :=
  code_secure_sh repoRoot

/-- The `tools/code_secure.ps1` write: unconditional. -/
def write_launcher_ps1 (repoRoot : String) (_existing : Option String) : String :=
  code_secure_ps1 repoRoot

/-! ### `ensure_gitignore` -/

/-- The `lines` literal in `ensure_gitignore`. -/
def gitignoreLines : List String :=
  [".venv/", ".pythonrt/", "secrets.toml", "__pycache__/", ".vscode/*.log"]

/-- The content built by `ensure_gitignore` from the stripped existing
lines: union with the fixed entries, drop empties (`filter(None, ...)` —
performed member-wise before the sorted-set enumeration, which only sees
the member set), sort, and join with a trailing newline. -/
def gitignoreContent (existing : List String) : String :=
  joinNL (pySortedSet ((existing ++ gitignoreLines).filter (· != ""))) ++ "\n"

/-- `ensure_gitignore(repo_root)` as a transform of the content of
`.gitignore` (`none` = absent): strip every existing line and rebuild the
file from the union with the fixed entries. -/
def ensure_gitignore (c : Option String) : String :=
  gitignoreContent
    (match c with
     | some t => (splitlines t).map pyStrip
     | none => [])

/-! ### Helper lemmas: repository detection -/

/-- Taking the parent commutes with iterated ancestors. -/
theorem parentIter_parentDir (p : List String) (k : Nat) :
    parentIter (parentDir p) k = parentDir (parentIter p k) := by
  induction k with
  | zero => rfl
  | succ k ih => simp only [parentIter, ih]

/-- If no directory among the first `n` ancestors (the directory itself
included) has the marker, the detection loop with fuel `n` fails. -/
theorem detectAux_eq_none (hasGit : List String → Bool) (n : Nat) (p : List String)
    (h : ∀ k, k < n → hasGit (parentIter p k) = false) :
    detectAux hasGit n p = none := by
  induction n generalizing p with
  | zero => rfl
  | succ n ih =>
    have h0 : hasGit p = false := h 0 (Nat.succ_pos n)
    simp only [detectAux, h0, Bool.false_eq_true, if_false]
    by_cases hp : parentDir p = p
    · simp [hp]
    · simp only [hp, if_false]
      refine ih (parentDir p) ?_
      intro k hk
      rw [parentIter_parentDir]
      exact h (k + 1) (Nat.succ_lt_succ hk)

/-! ### Claim theorems: C1, C6, C7, C8, C9, C10 -/

/-- C1: without an explicit interpreter version, a manifest containing a
line whose extracted package name lies in the heavy-package set makes the
target-version decision of `create_venv_and_install` select the pinned
version `"3.11"`. -/
theorem heavy_manifest_selects_pinned_version (text hostVer : String)
    (h : ∃ l ∈ splitlines text, pyStrip l ≠ "" ∧
      pyStartsWith "#" (pyStrip l) = false ∧
      HEAVY_PKGS.contains (extractName (pyStrip l)) = true) :
    decideTargetVer none (parse_requirements_for_heavy (some text)) hostVer
      = "3.11" := by
  obtain ⟨l, hl, hne, hns, hcon⟩ := h
  have hheavy : parse_requirements_for_heavy (some text) = true := by
    unfold parse_requirements_for_heavy
    simp only [List.any_eq_true]
    refine ⟨pyStrip l, ?_, hcon⟩
    simp only [List.mem_filter, List.mem_map]
    refine ⟨⟨l, hl, rfl⟩, ?_⟩
    simp [pyTruthy, hns, bne_iff_ne, hne]
  rw [hheavy]
  rfl

/-- C1 witness: the manifest `"numpy==1.26.0\n"` pins the target to
`"3.11"` even though the host runs `"3.12"`. -/
theorem heavy_manifest_selects_pinned_version_witness :
    decideTargetVer none
      (parse_requirements_for_heavy (some "numpy==1.26.0\n")) "3.12" = "3.11" :=
  heavy_manifest_selects_pinned_version "numpy==1.26.0\n" "3.12" (by decide)

/-- C6: without an explicit interpreter version, a manifest none of whose
lines extracts to a heavy package name (or an absent manifest) makes the
target-version decision select the host interpreter's version. -/
theorem light_manifest_targets_host_version (c : Option String) (hostVer : String)
    (h : ∀ text, c = some text → ∀ l ∈ splitlines text,
      HEAVY_PKGS.contains (extractName (pyStrip l)) = false) :
    decideTargetVer none (parse_requirements_for_heavy c) hostVer = hostVer := by
  have hlight : parse_requirements_for_heavy c = false := by
    cases c with
    | none => rfl
    | some text =>
      unfold parse_requirements_for_heavy
      simp only [List.any_eq_false]
      intro x hx
      simp only [List.mem_filter, List.mem_map] at hx
      obtain ⟨⟨l, hl, rfl⟩, -⟩ := hx
      simpa using h text rfl l hl
  rw [hlight]
  rfl

/-- C6 witness: a light manifest (`requests`) and an absent manifest both
leave the host version `"3.12"` as the target. -/
theorem light_manifest_targets_host_version_witness :
    decideTargetVer none
        (parse_requirements_for_heavy (some "requests==2.31.0\n")) "3.12" = "3.12"
    ∧ decideTargetVer none (parse_requirements_for_heavy none) "3.12" = "3.12" :=
  ⟨light_manifest_targets_host_version (some "requests==2.31.0\n") "3.12"
      (by decide),
   light_manifest_targets_host_version none "3.12" (by intro t ht; cases ht)⟩

/-- C7: when the destination directory exists and is non-empty (and git is
available, the preceding fatal check), `clone_repo` does not invoke
`git clone`, prints the skip message, and returns the destination. -/
theorem clone_skips_nonempty_destination (repoSsh dest : String)
    (haveGit destExists destNonempty : Bool)
    (hG : haveGit = true) (hE : destExists = true) (hN : destNonempty = true) :
    clone_repo haveGit repoSsh dest destExists destNonempty =
      .ok { ranClone := false
            messages := ["⚠️ Destination '" ++ dest ++
              "' already exists and is not empty; skipping clone."]
            result := dest } := by
  subst hG; subst hE; subst hN; rfl

/-- C7 witness: concrete non-empty destination `"proj"`. -/
theorem clone_skips_nonempty_destination_witness :
    clone_repo true "git@github.com:org/repo.git" "proj" true true =
      .ok { ranClone := false
            messages := ["⚠️ Destination 'proj' already exists and is not empty; skipping clone."]
            result := "proj" } :=
  clone_skips_nonempty_destination "git@github.com:org/repo.git" "proj"
    true true true rfl rfl rfl

/-- C8: `ensure_portable_python` returns the expected executable path
without downloading when it already exists, and raises a `RuntimeError`
with a message when the download and extraction do not produce it. -/
theorem portable_python_skip_and_error (os : OS) (repoRoot version : String)
    (before afterExtract : Bool) :
    (before = true →
      ensure_portable_python os repoRoot version before afterExtract =
        .ok (portableCandidate os repoRoot version, false))
    ∧ (before = false → afterExtract = false →
      ensure_portable_python os repoRoot version before afterExtract =
        .error "Portable Python extraction did not produce an executable at expected path.") := by
  constructor
  · intro h; subst h; rfl
  · intro h1 h2; subst h1; subst h2; rfl

/-- C8 witness: both branches at a concrete repository root and version. -/
theorem portable_python_skip_and_error_witness :
    ensure_portable_python OS.linux "/repo" "3.11.9" true false =
      .ok (portableCandidate OS.linux "/repo" "3.11.9", false)
    ∧ ensure_portable_python OS.linux "/repo" "3.11.9" false false =
      .error "Portable Python extraction did not produce an executable at expected path." :=
  ⟨(portable_python_skip_and_error OS.linux "/repo" "3.11.9" true false).1 rfl,
   (portable_python_skip_and_error OS.linux "/repo" "3.11.9" false false).2 rfl rfl⟩

/-- C9: when the default configuration file is absent, the copy step does
not raise, copies nothing, reports skipping, and the working copy is
unchanged. -/
theorem missing_default_config_skips (dstC : Option String) :
    copy_initial_conditions none dstC =
      .ok (dstC, "ℹ️ initial_conditions_default.yaml not found; skipping copy.") :=
  rfl

/-- C9 witness: with a pre-existing working copy. -/
theorem missing_default_config_skips_witness :
    copy_initial_conditions none (some "a: 1\n") =
      .ok (some "a: 1\n",
        "ℹ️ initial_conditions_default.yaml not found; skipping copy.") :=
  missing_default_config_skips (some "a: 1\n")

/-- C10: `detect_repo_root` examines only the starting directory and up to
5 ancestors; when none of those 6 directories has the `.git` marker the
detection returns `none` and `main` exits fatally, even if a deeper
ancestor does carry the marker. -/
theorem detection_limited_to_six_directories (hasGit : List String → Bool)
    (p : List String) (h : ∀ k, k < 6 → hasGit (parentIter p k) = false) :
    detect_repo_root hasGit p = none ∧
    mainRepoRoot hasGit p =
      .error "Error: Not inside a Git repository and no --repo was provided." := by
  have hd : detect_repo_root hasGit p = none := detectAux_eq_none hasGit 6 p h
  exact ⟨hd, by unfold mainRepoRoot; rw [hd]⟩

/-- The marker predicate of the C10 witness scenario: only the directory
`["r"]` carries a `.git` marker. -/
def hasGitW : List String → Bool :=
  fun l => decide (l = ["r"])

/-- The starting directory of the C10 witness scenario: six levels below
the marked directory. -/
def pW : List String := ["r", "a", "b", "c", "d", "e", "f"]

/-- C10 witness: the marker sits on the 6th ancestor (`["r"]`) of a
7-component starting directory, so the start is inside a repository, yet
detection fails and the tool exits fatally. -/
theorem detection_limited_to_six_directories_witness :
    hasGitW (parentIter pW 6) = true
    ∧ detect_repo_root hasGitW pW = none
    ∧ mainRepoRoot hasGitW pW =
        .error "Error: Not inside a Git repository and no --repo was provided." :=
  ⟨by decide,
   (detection_limited_to_six_directories hasGitW pW (by decide)).1,
   (detection_limited_to_six_directories hasGitW pW (by decide)).2⟩

/-! ### Helper lemmas: Python `dict` merge -/

/-- Looking up in the value-update map of `pyDictMerge`. -/
theorem lookup_map_getD (s e : List (String × Json)) (k : String) :
    List.lookup k (e.map (fun kv => (kv.1, (List.lookup kv.1 s).getD kv.2))) =
      (List.lookup k e).map (fun v => (List.lookup k s).getD v) := by
  induction e with
  | nil => rfl
  | cons a t ih =>
    obtain ⟨a1, a2⟩ := a
    simp only [List.map_cons, List.lookup_cons]
    rcases hk : k == a1 with _ | _
    · simpa using ih
    · have : k = a1 := eq_of_beq hk
      subst this
      simp

/-- Filtering out pairs whose key differs from `k` does not change the
lookup of `k`. -/
theorem lookup_filter_of_key (p : String × Json → Bool) (l : List (String × Json))
    (k : String) (h : ∀ v, (k, v) ∈ l → p (k, v) = true) :
    List.lookup k (l.filter p) = List.lookup k l := by
  induction l with
  | nil => rfl
  | cons a t ih =>
    obtain ⟨a1, a2⟩ := a
    by_cases hk : k = a1
    · subst hk
      have hp := h a2 (List.mem_cons_self _ _)
      simp [List.filter_cons, hp, List.lookup_cons]
    · have hk' : (k == a1) = false := beq_false_of_ne hk
      have ht : ∀ v, (k, v) ∈ t → p (k, v) = true := by
        intro v hv; exact h v (List.mem_cons_of_mem _ hv)
      rcases hp : p (a1, a2) with _ | _
      · simp [List.filter_cons, hp, List.lookup_cons, hk', ih ht]
      · simp [List.filter_cons, hp, List.lookup_cons, hk', ih ht]

/-- In a list with `Nodup` keys, a member pair is what lookup finds. -/
theorem lookup_of_mem_nodup (l : List (String × Json)) (k : String) (v : Json)
    (hnd : (l.map Prod.fst).Nodup) (hm : (k, v) ∈ l) :
    List.lookup k l = some v := by
  induction l with
  | nil => cases hm
  | cons a t ih =>
    obtain ⟨a1, a2⟩ := a
    simp only [List.map_cons, List.nodup_cons] at hnd
    rcases List.mem_cons.mp hm with heq | hmt
    · cases heq
      simp [List.lookup_cons]
    · have hk : k ≠ a1 := by
        intro h; subst h
        exact hnd.1 (List.mem_map.mpr ⟨(k, v), hmt, rfl⟩)
      simp [List.lookup_cons, beq_false_of_ne hk, ih hnd.2 hmt]

/-- A map whose function fixes every member is the identity. -/
theorem map_eq_self_of_mem {α : Type} (f : α → α) (l : List α)
    (h : ∀ x ∈ l, f x = x) : l.map f = l := by
  induction l with
  | nil => rfl
  | cons a t ih =>
    simp only [List.map_cons, h a (List.mem_cons_self _ _),
      ih (fun x hx => h x (List.mem_cons_of_mem _ hx))]

/-- Merging into an empty dict gives the new dict. -/
theorem pyDictMerge_nil (s : List (String × Json)) : pyDictMerge [] s = s := by
  unfold pyDictMerge
  simp [List.filter_eq_self]

/-- A key absent from the new dict keeps its old binding (or absence)
through the merge. -/
theorem pyDictMerge_lookup_of_not_mem (e s : List (String × Json)) (k : String)
    (h : k ∉ s.map Prod.fst) :
    List.lookup k (pyDictMerge e s) = List.lookup k e := by
  unfold pyDictMerge
  have hs : List.lookup k s = none := by
    rw [List.lookup_eq_none_iff]
    intro p hp
    simp only [bne_iff_ne, ne_eq]
    intro hkp
    exact h (List.mem_map.mpr ⟨p, hp, hkp.symm⟩)
  rw [List.lookup_append, lookup_map_getD]
  have hfil : List.lookup k (s.filter (fun kv => (List.lookup kv.1 e).isNone)) = none := by
    rw [List.lookup_eq_none_iff]
    intro p hp
    simp only [bne_iff_ne, ne_eq]
    intro hkp
    subst hkp
    have := List.lookup_eq_none_iff.mp hs p (List.mem_of_mem_filter hp)
    simp at this
  rw [hfil, hs]
  cases List.lookup k e <;> simp

/-- A key bound in the new dict gets the new value through the merge. -/
theorem pyDictMerge_lookup_of_mem (e s : List (String × Json)) (k : String)
    (w : Json) (h : List.lookup k s = some w) :
    List.lookup k (pyDictMerge e s) = some w := by
  unfold pyDictMerge
  rw [List.lookup_append, lookup_map_getD]
  cases he : List.lookup k e with
  | some v => simp [h]
  | none =>
    have hfl := lookup_filter_of_key (fun kv => (List.lookup kv.1 e).isNone) s k
      (fun v hv => by simp [he])
    simp [hfl, h]

/-- Every key of the new dict is bound in the merge result. -/
theorem pyDictMerge_lookup_isSome (e s : List (String × Json)) (k : String)
    (h : (List.lookup k s).isSome) :
    (List.lookup k (pyDictMerge e s)).isSome := by
  obtain ⟨w, hw⟩ := Option.isSome_iff_exists.mp h
  rw [pyDictMerge_lookup_of_mem e s k w hw]
  rfl

/-- Applying the dict merge a second time with the same new dict does not
change the result (the second run's `\x7b**existing, **settings\x7d` is a
no-op), provided the new dict has no duplicate keys. -/
theorem pyDictMerge_idem (e s : List (String × Json))
    (hnd : (s.map Prod.fst).Nodup) :
    pyDictMerge (pyDictMerge e s) s = pyDictMerge e s := by
  have key : ∀ kv ∈ pyDictMerge e s,
      (kv.1, (List.lookup kv.1 s).getD kv.2) = kv := by
    intro kv hkv
    unfold pyDictMerge at hkv
    rcases List.mem_append.mp hkv with hmap | hfilt
    · obtain ⟨ab, hab, hab2⟩ := List.mem_map.mp hmap
      obtain ⟨a, b⟩ := ab
      cases hab2
      cases hs : List.lookup a s with
      | none => simp [hs]
      | some w => simp [hs]
    · have hkv' : kv ∈ s := List.mem_of_mem_filter hfilt
      obtain ⟨a, b⟩ := kv
      have := lookup_of_mem_nodup s a b hnd hkv'
      simp [this]
  have hfil : (s.filter (fun kv => (List.lookup kv.1 (pyDictMerge e s)).isNone)) = [] := by
    rw [List.filter_eq_nil_iff]
    intro kv hkv
    have hks : (List.lookup kv.1 s).isSome := by
      rw [lookup_of_mem_nodup s kv.1 kv.2 hnd hkv]
      rfl
    have hms := pyDictMerge_lookup_isSome e s kv.1 hks
    simp only [Option.isNone_iff_eq_none]
    intro hnone
    rw [hnone] at hms
    cases hms
  calc pyDictMerge (pyDictMerge e s) s
      = (pyDictMerge e s).map (fun kv => (kv.1, (List.lookup kv.1 s).getD kv.2)) ++
          s.filter (fun kv => (List.lookup kv.1 (pyDictMerge e s)).isNone) := rfl
    _ = pyDictMerge e s ++ [] := by rw [map_eq_self_of_mem _ _ key, hfil]
    _ = pyDictMerge e s := List.append_nil _

/-! ### Helper lemmas: the lexicographic order and `pySortedSet` -/

/-- Unfolding equation for `charListLe` on two cons cells. -/
theorem charListLe_cons_cons (a b : Char) (as bs : List Char) :
    charListLe (a :: as) (b :: bs) =
      if a < b then true else if b < a then false else charListLe as bs := rfl

/-- Membership characterisation of `charListLe` on cons cells. -/
theorem charListLe_cons_iff {a b : Char} {as bs : List Char} :
    charListLe (a :: as) (b :: bs) = true ↔
      a < b ∨ (a = b ∧ charListLe as bs = true) := by
  rw [charListLe_cons_cons]
  split_ifs with h1 h2
  · simp [h1]
  · have hne : a ≠ b := fun h => absurd (h ▸ h2) (lt_irrefl a)
    simp [h1, hne]
  · have heq : a = b := le_antisymm (not_lt.mp h2) (not_lt.mp h1)
    simp [heq]

/-- `charListLe` is total. -/
theorem charListLe_total : ∀ x y, charListLe x y = true ∨ charListLe y x = true
  | [], _ => Or.inl rfl
  | _ :: _, [] => Or.inr rfl
  | a :: as, b :: bs => by
    rcases lt_trichotomy a b with h | h | h
    · exact Or.inl (charListLe_cons_iff.mpr (Or.inl h))
    · subst h
      rcases charListLe_total as bs with ih | ih
      · exact Or.inl (charListLe_cons_iff.mpr (Or.inr ⟨rfl, ih⟩))
      · exact Or.inr (charListLe_cons_iff.mpr (Or.inr ⟨rfl, ih⟩))
    · exact Or.inr (charListLe_cons_iff.mpr (Or.inl h))

/-- `charListLe` is antisymmetric. -/
theorem charListLe_antisymm : ∀ x y, charListLe x y = true →
    charListLe y x = true → x = y
  | [], [], _, _ => rfl
  | [], _ :: _, _, h2 => by cases h2
  | _ :: _, [], h1, _ => by cases h1
  | a :: as, b :: bs, h1, h2 => by
    rcases charListLe_cons_iff.mp h1 with hab | ⟨rfl, h1'⟩
    · rcases charListLe_cons_iff.mp h2 with hba | ⟨heq, h2'⟩
      · exact absurd hba (lt_asymm hab)
      · exact absurd hab (heq ▸ lt_irrefl b)
    · rcases charListLe_cons_iff.mp h2 with hba | ⟨heq, h2'⟩
      · exact absurd hba (lt_irrefl a)
      · rw [charListLe_antisymm as bs h1' h2']

/-- `charListLe` is transitive. -/
theorem charListLe_trans : ∀ x y z, charListLe x y = true →
    charListLe y z = true → charListLe x z = true
  | [], _, _, _, _ => rfl
  | _ :: _, [], _, h1, _ => by cases h1
  | _ :: _, _ :: _, [], _, h2 => by cases h2
  | a :: as, b :: bs, c :: cs, h1, h2 => by
    rcases charListLe_cons_iff.mp h1 with hab | ⟨rfl, h1'⟩
    · rcases charListLe_cons_iff.mp h2 with hbc | ⟨rfl, h2'⟩
      · exact charListLe_cons_iff.mpr (Or.inl (lt_trans hab hbc))
      · exact charListLe_cons_iff.mpr (Or.inl hab)
    · rcases charListLe_cons_iff.mp h2 with hbc | ⟨rfl, h2'⟩
      · exact charListLe_cons_iff.mpr (Or.inl hbc)
      · exact charListLe_cons_iff.mpr
          (Or.inr ⟨rfl, charListLe_trans as bs cs h1' h2'⟩)

/-- Two strings with equal character data are equal. -/
theorem string_data_eq {a b : String} (h : a.data = b.data) : a = b := by
  cases a; cases b; cases h; rfl

instance : IsTrans String strLeRel :=
  ⟨fun a b c => charListLe_trans a.data b.data c.data⟩

instance : IsAntisymm String strLeRel :=
  ⟨fun a b h1 h2 => string_data_eq (charListLe_antisymm a.data b.data h1 h2)⟩

instance : IsTotal String strLeRel :=
  ⟨fun a b => charListLe_total a.data b.data⟩

/-- `pySortedSet` enumerates exactly the members of its input. -/
theorem pySortedSet_mem (l : List String) (x : String) :
    x ∈ pySortedSet l ↔ x ∈ l := by
  unfold pySortedSet
  rw [(List.perm_insertionSort strLeRel l.dedup).mem_iff, List.mem_dedup]

/-- `pySortedSet` has no duplicates. -/
theorem pySortedSet_nodup (l : List String) : (pySortedSet l).Nodup :=
  (List.perm_insertionSort strLeRel l.dedup).nodup_iff.mpr (List.nodup_dedup l)

/-- `pySortedSet` only depends on the member set of its input. -/
theorem pySortedSet_congr (l₁ l₂ : List String)
    (h : ∀ x, x ∈ l₁ ↔ x ∈ l₂) : pySortedSet l₁ = pySortedSet l₂ := by
  have hperm : List.Perm l₁.dedup l₂.dedup := by
    rw [List.perm_ext_iff_of_nodup (List.nodup_dedup l₁) (List.nodup_dedup l₂)]
    intro a
    rw [List.mem_dedup, List.mem_dedup]
    exact h a
  have hp : List.Perm (pySortedSet l₁) (pySortedSet l₂) :=
    ((List.perm_insertionSort strLeRel l₁.dedup).trans hperm).trans
      (List.perm_insertionSort strLeRel l₂.dedup).symm
  exact List.eq_of_perm_of_sorted hp
    (List.sorted_insertionSort strLeRel l₁.dedup)
    (List.sorted_insertionSort strLeRel l₂.dedup)

/-! ### Claim theorems: C3 (settings merge), C4 (emission), C5 (--python) -/

/-- C3: the settings merge writes `\x7b**existing, **settings\x7d`: keys not
among the computed settings keep their original value, colliding keys get
the newly computed value, and in particular the assistant-disabling key
`github.copilot.enable` is bound to the computed block. -/
theorem settings_merge_preserves_and_overrides (os : OS) (repoRoot : String)
    (e : List (String × Json)) (k : String) :
    write_settings (some (some (Json.obj e))) (vscodeSettings os repoRoot) =
      some (Json.obj (pyDictMerge e (vscodeSettings os repoRoot)))
    ∧ (k ∉ (vscodeSettings os repoRoot).map Prod.fst →
        List.lookup k (pyDictMerge e (vscodeSettings os repoRoot)) =
          List.lookup k e)
    ∧ (∀ w, List.lookup k (vscodeSettings os repoRoot) = some w →
        List.lookup k (pyDictMerge e (vscodeSettings os repoRoot)) = some w)
    ∧ List.lookup "github.copilot.enable"
        (pyDictMerge e (vscodeSettings os repoRoot)) =
      some (Json.obj [("*", Json.bool false), ("plaintext", Json.bool false),
                      ("markdown", Json.bool false), ("scminput", Json.bool false)]) := by
  refine ⟨rfl, ?_, ?_, ?_⟩
  · exact fun h => pyDictMerge_lookup_of_not_mem e _ k h
  · exact fun w hw => pyDictMerge_lookup_of_mem e _ k w hw
  · exact pyDictMerge_lookup_of_mem e _ _ _ rfl

/-- The pre-existing settings object of the C3 witness scenario: one
unrelated key and one colliding assistant key. -/
def settingsW : List (String × Json) :=
  [("myCustomKey", Json.num 7), ("github.copilot.enable", Json.bool true)]

/-- C3 witness: merging the computed settings into `settingsW` keeps the
unrelated key `myCustomKey` and overrides `github.copilot.enable`. -/
theorem settings_merge_preserves_and_overrides_witness :
    List.lookup "myCustomKey"
        (pyDictMerge settingsW (vscodeSettings OS.linux "/r")) = some (Json.num 7)
    ∧ List.lookup "github.copilot.enable"
        (pyDictMerge settingsW (vscodeSettings OS.linux "/r")) =
      some (Json.obj [("*", Json.bool false), ("plaintext", Json.bool false),
                      ("markdown", Json.bool false), ("scminput", Json.bool false)]) := by
  have h := settings_merge_preserves_and_overrides OS.linux "/r" settingsW
    "myCustomKey"
  refine ⟨?_, h.2.2.2⟩
  rw [h.2.1 (by decide)]
  rfl

/-- C4 counterexample: the launch-configuration write is not a merge: a
pre-existing launch.json with the extra key `myLaunchKey` is replaced by
the fixed content, which is independent of the existing file and does not
contain the key. -/
theorem launch_configuration_not_merged :
    write_launch (some (some (Json.obj
        [("version", Json.str "0.1.0"), ("myLaunchKey", Json.bool true)]))) =
      launchJson
    ∧ write_launch (some (some (Json.obj
        [("version", Json.str "0.1.0"), ("myLaunchKey", Json.bool true)]))) =
      write_launch none
    ∧ List.lookup "myLaunchKey" launchFields = none :=
  ⟨rfl, rfl, rfl⟩

/-- C4 (amended): of the three emitted editor-configuration kinds, the
settings file and the extension recommendations are merged with the
pre-existing file (unrelated settings keys and existing recommendation
entries survive); the launch configuration alone is overwritten wholesale
with fixed content, ignoring any pre-existing file. -/
theorem config_emission_merge_behavior (os : OS) (repoRoot : String) :
    (∀ e k, k ∉ (vscodeSettings os repoRoot).map Prod.fst →
      write_settings (some (some (Json.obj e))) (vscodeSettings os repoRoot) =
        some (Json.obj (pyDictMerge e (vscodeSettings os repoRoot)))
      ∧ List.lookup k (pyDictMerge e (vscodeSettings os repoRoot)) =
          List.lookup k e)
    ∧ (∀ fs unw rcs out,
        pyIterStrs (pyGet fs "unwantedRecommendations" (Json.arr [])) = some unw →
        pyIterStrs (pyGet fs "recommendations" (Json.arr [])) = some rcs →
        write_extensions (some (some (Json.obj fs))) = some out →
        out = Json.obj
          [("recommendations",
              Json.arr ((pySortedSet (rcs ++ payloadRecommendations)).map Json.str)),
           ("unwantedRecommendations",
              Json.arr ((pySortedSet (unw ++ payloadUnwanted)).map Json.str))]
        ∧ (∀ x ∈ unw, x ∈ pySortedSet (unw ++ payloadUnwanted))
        ∧ (∀ x ∈ rcs, x ∈ pySortedSet (rcs ++ payloadRecommendations)))
    ∧ (∀ c, write_launch c = launchJson) := by
  refine ⟨?_, ?_, fun _ => rfl⟩
  · intro e k hk
    exact ⟨rfl, pyDictMerge_lookup_of_not_mem e _ k hk⟩
  · intro fs unw rcs out h1 h2 hout
    have hme : write_extensions (some (some (Json.obj fs))) = extensionsMerge fs :=
      rfl
    rw [hme] at hout
    unfold extensionsMerge at hout
    rw [h1, h2] at hout
    simp only [Option.bind_eq_bind, Option.some_bind, Option.pure_def,
      Option.some.injEq] at hout
    refine ⟨hout.symm, ?_, ?_⟩
    · intro x hx
      rw [pySortedSet_mem]
      exact List.mem_append_left _ hx
    · intro x hx
      rw [pySortedSet_mem]
      exact List.mem_append_left _ hx

/-- C4 witness: a pre-existing extensions.json with one extra entry in
each list; the merge keeps both, and the settings merge keeps an
unrelated key. -/
theorem config_emission_merge_behavior_witness :
    List.lookup "notCopilotKey"
        (pyDictMerge [("notCopilotKey", Json.null)] (vscodeSettings OS.linux "/r")) =
      some Json.null
    ∧ "me.extra" ∈ pySortedSet (["me.extra"] ++ payloadUnwanted)
    ∧ "me.other" ∈ pySortedSet (["me.other"] ++ payloadRecommendations)
    ∧ write_launch (some (some Json.null)) = launchJson := by
  have h := config_emission_merge_behavior OS.linux "/r"
  have h2 := h.2.1 [("unwantedRecommendations", Json.arr [Json.str "me.extra"]),
      ("recommendations", Json.arr [Json.str "me.other"])]
    ["me.extra"] ["me.other"] _ rfl rfl rfl
  refine ⟨?_, ?_, ?_, h.2.2 _⟩
  · rw [(h.1 [("notCopilotKey", Json.null)] "notCopilotKey" (by decide)).2]
    rfl
  · exact h2.2.1 "me.extra" (by decide)
  · exact h2.2.2 "me.other" (by decide)

/-- C5 counterexample: `--python python3.12` (a named executable that is
not installed) is not honored: with a heavy manifest the resolution
targets the pin `"3.11"` and creates the environment from `python3.11`. -/
theorem explicit_python_not_always_honored :
    resolveVenvSource OS.linux (some "python3.12") (fun _ => false)
      (fun s => if s = "python3.11" then some "/usr/bin/python3.11" else none)
      (fun _ => false) true "3.13"
      = VenvSource.interpreter "/usr/bin/python3.11"
    ∧ decideTargetVer (some "python3.12") true "3.13" = "3.11"
    ∧ (if "python3.12" = "python3.11" then some "/usr/bin/python3.11" else none)
        = (none : Option String) :=
  ⟨rfl, rfl, rfl⟩

/-- C5 (amended): an explicit `--python` is honored whenever it can be
resolved: a version string starting with `"3."` becomes the target
version; an existing path is used as the interpreter; a name found on
`PATH` is used as the interpreter.  (A non-empty spec that is neither
falls back to the heavy/host target logic.) -/
theorem explicit_python_honored_when_resolvable (os : OS) (spec : Option String)
    (pathExists : String → Bool) (whichExe : String → Option String)
    (pyLauncherWorks : String → Bool) (heavy : Bool) (hostVer : String) :
    (∀ s, spec = some s → pyStartsWith "3." s = true →
      decideTargetVer spec heavy hostVer = s)
    ∧ (∀ s, spec = some s → pyTruthy s = true → pathExists s = true →
      resolveVenvSource os spec pathExists whichExe pyLauncherWorks heavy hostVer
        = VenvSource.interpreter s)
    ∧ (∀ s p, spec = some s → pyTruthy s = true → pathExists s = false →
      whichExe s = some p →
      resolveVenvSource os spec pathExists whichExe pyLauncherWorks heavy hostVer
        = VenvSource.interpreter p) := by
  refine ⟨?_, ?_, ?_⟩
  · rintro s rfl hpre
    have hne : s ≠ "" := by
      intro h
      subst h
      exact absurd hpre (by decide)
    have ht : pyTruthy s = true := by simp [pyTruthy, bne_iff_ne, hne]
    simp [decideTargetVer, ht, hpre]
  · rintro s rfl ht hpe
    simp [resolveVenvSource, ht, hpe]
  · rintro s p rfl ht hpe hw
    simp [resolveVenvSource, ht, hpe, hw]

/-- C5 amended witness: a version spec `"3.10"`, an existing path, and a
`PATH`-resolvable name are each honored. -/
theorem explicit_python_honored_when_resolvable_witness :
    decideTargetVer (some "3.10") true "3.13" = "3.10"
    ∧ resolveVenvSource OS.linux (some "/opt/py/bin/python")
        (fun s => s == "/opt/py/bin/python") (fun _ => none) (fun _ => false)
        true "3.13" = VenvSource.interpreter "/opt/py/bin/python"
    ∧ resolveVenvSource OS.linux (some "python3.11") (fun _ => false)
        (fun s => if s = "python3.11" then some "/usr/bin/python3.11" else none)
        (fun _ => false) true "3.13"
        = VenvSource.interpreter "/usr/bin/python3.11" := by
  refine ⟨?_, ?_, ?_⟩
  · exact (explicit_python_honored_when_resolvable OS.linux (some "3.10")
      (fun _ => false) (fun _ => none) (fun _ => false) true "3.13").1
      "3.10" rfl (by decide)
  · exact (explicit_python_honored_when_resolvable OS.linux
      (some "/opt/py/bin/python") (fun s => s == "/opt/py/bin/python")
      (fun _ => none) (fun _ => false) true "3.13").2.1
      "/opt/py/bin/python" rfl (by decide) (by decide)
  · exact (explicit_python_honored_when_resolvable OS.linux (some "python3.11")
      (fun _ => false)
      (fun s => if s = "python3.11" then some "/usr/bin/python3.11" else none)
      (fun _ => false) true "3.13").2.2
      "python3.11" "/usr/bin/python3.11" rfl (by decide) (by decide) (by decide)

/-! ### Helper lemmas: stripping -/

/-- The head surviving a `dropWhile` fails the predicate. -/
theorem dropWhile_head_false {α : Type} (p : α → Bool) :
    ∀ (l : List α) (a : α) (t : List α), l.dropWhile p = a :: t → p a = false := by
  intro l a t h
  induction l with
  | nil => cases h
  | cons c cs ih =>
    rw [List.dropWhile_cons] at h
    by_cases hc : p c
    · rw [if_pos hc] at h
      exact ih h
    · rw [if_neg hc] at h
      cases h
      simpa using hc

/-- `dropWhile` is idempotent. -/
theorem dropWhile_idem {α : Type} (p : α → Bool) (l : List α) :
    (l.dropWhile p).dropWhile p = l.dropWhile p := by
  rcases h : l.dropWhile p with _ | ⟨a, t⟩
  · rfl
  · exact List.dropWhile_cons_of_neg (by simp [dropWhile_head_false p l a t h])

/-- A stripped list needs no further stripping on the left. -/
theorem dropWhile_stripChars (p : Char → Bool) (l : List Char) :
    (stripChars p l).dropWhile p = stripChars p l := by
  rcases hrr : stripChars p l with _ | ⟨a, t⟩
  · rfl
  · have hpre : stripChars p l <+: l.dropWhile p := by
      have hsuf : (l.dropWhile p).reverse.dropWhile p <:+ (l.dropWhile p).reverse :=
        List.dropWhile_suffix p
      have h2 := List.reverse_prefix.mpr hsuf
      rwa [List.reverse_reverse] at h2
    rw [hrr] at hpre
    obtain ⟨rest, hrest⟩ := hpre
    have hm : l.dropWhile p = a :: (t ++ rest) := by
      rw [← hrest]
      simp
    have hpa := dropWhile_head_false p l a (t ++ rest) hm
    exact List.dropWhile_cons_of_neg (by simp [hpa])

/-- Stripping is idempotent. -/
theorem stripChars_idem (p : Char → Bool) (l : List Char) :
    stripChars p (stripChars p l) = stripChars p l := by
  show (((stripChars p l).dropWhile p).reverse.dropWhile p).reverse = stripChars p l
  rw [dropWhile_stripChars]
  have hrev : (stripChars p l).reverse = (l.dropWhile p).reverse.dropWhile p := by
    unfold stripChars
    rw [List.reverse_reverse]
  rw [hrev, dropWhile_idem]
  unfold stripChars
  rfl

/-- Stripping only removes characters. -/
theorem stripChars_subset (p : Char → Bool) (l : List Char) :
    ∀ c ∈ stripChars p l, c ∈ l := by
  intro c hc
  unfold stripChars at hc
  rw [List.mem_reverse] at hc
  have h1 := (List.dropWhile_sublist (l := (l.dropWhile p).reverse) p).subset hc
  rw [List.mem_reverse] at h1
  exact (List.dropWhile_sublist (l := l) p).subset h1

/-- `pyStrip` is idempotent. -/
theorem pyStrip_idem (s : String) : pyStrip (pyStrip s) = pyStrip s := by
  show String.mk (stripChars isPyWS (stripChars isPyWS s.data)) = _
  rw [stripChars_idem]
  rfl

/-- The characters of a stripped string come from the original. -/
theorem pyStrip_data_subset (s : String) :
    ∀ c ∈ (pyStrip s).data, c ∈ s.data := by
  intro c hc
  exact stripChars_subset isPyWS s.data c hc

/-! ### Helper lemmas: splitlines and join -/

/-- Unfolding: a leading `\n` yields an empty line. -/
theorem splitLines_nl (r : List Char) :
    splitLinesChars ('\n' :: r) = [] :: splitLinesChars r := by
  conv_lhs => rw [splitLinesChars.eq_def]
  rfl

/-- Unfolding: a leading `\r\n` yields an empty line and consumes both
characters. -/
theorem splitLines_crnl (r : List Char) :
    splitLinesChars ('\r' :: '\n' :: r) = [] :: splitLinesChars r := by
  conv_lhs => rw [splitLinesChars.eq_def]
  rfl

/-- Unfolding: a final lone `\r`. -/
theorem splitLines_cr_single : splitLinesChars ['\r'] = [[]] := by
  conv_lhs => rw [splitLinesChars.eq_def]
  rfl

/-- Unfolding: a leading `\r` not followed by `\n`. -/
theorem splitLines_cr (e : Char) (r : List Char) (he : e ≠ '\n') :
    splitLinesChars ('\r' :: e :: r) = [] :: splitLinesChars (e :: r) := by
  conv_lhs => rw [splitLinesChars.eq_def]
  show (match e :: r with
    | '\n' :: r' => [] :: splitLinesChars r'
    | r'' => [] :: splitLinesChars r'') = [] :: splitLinesChars (e :: r)
  split
  next h => exact absurd (by injection h) he
  next => rfl

/-- Unfolding: an ordinary leading character extends the first line. -/
theorem splitLines_other (d : Char) (rest : List Char)
    (h1 : d ≠ '\n') (h2 : d ≠ '\r') :
    splitLinesChars (d :: rest) = (match splitLinesChars rest with
      | [] => [[d]]
      | line :: ls => (d :: line) :: ls) := by
  conv_lhs => rw [splitLinesChars.eq_def]
  show (if d = '\n' then [] :: splitLinesChars rest
    else if d = '\r' then
      match rest with
      | '\n' :: r => [] :: splitLinesChars r
      | r => [] :: splitLinesChars r
    else match splitLinesChars rest with
      | [] => [[d]]
      | line :: ls => (d :: line) :: ls) = _
  rw [if_neg h1, if_neg h2]

/-- No produced line contains a line-break character. -/
theorem splitLinesChars_no_break : ∀ (n : Nat) (cs : List Char), cs.length ≤ n →
    ∀ l ∈ splitLinesChars cs, ∀ c ∈ l, c ≠ '\n' ∧ c ≠ '\r' := by
  intro n
  induction n with
  | zero =>
    intro cs hcs l hl
    rw [List.length_eq_zero.mp (Nat.le_zero.mp hcs)] at hl
    cases hl
  | succ n ih =>
    intro cs hcs l hl c hc
    match cs with
    | [] => cases hl
    | d :: rest =>
      have hrest : rest.length ≤ n := Nat.le_of_succ_le_succ hcs
      by_cases hd1 : d = '\n'
      · subst hd1
        rw [splitLines_nl] at hl
        rcases List.mem_cons.mp hl with rfl | hl'
        · cases hc
        · exact ih rest hrest l hl' c hc
      · by_cases hd2 : d = '\r'
        · subst hd2
          match rest, hrest with
          | '\n' :: r, hrest =>
            rw [splitLines_crnl] at hl
            rcases List.mem_cons.mp hl with rfl | hl'
            · cases hc
            · exact ih r (Nat.le_of_succ_le hrest) l hl' c hc
          | [], hrest =>
            rw [splitLines_cr_single] at hl
            rcases List.mem_cons.mp hl with rfl | hl'
            · cases hc
            · cases hl'
          | e :: r, hrest =>
            by_cases he : e = '\n'
            · subst he
              rw [splitLines_crnl] at hl
              rcases List.mem_cons.mp hl with rfl | hl'
              · cases hc
              · exact ih r (Nat.le_of_succ_le hrest) l hl' c hc
            · rw [splitLines_cr e r he] at hl
              rcases List.mem_cons.mp hl with rfl | hl'
              · cases hc
              · exact ih (e :: r) hrest l hl' c hc
        · rw [splitLines_other d rest hd1 hd2] at hl
          rcases hsr : splitLinesChars rest with _ | ⟨line, ls⟩
          · rw [hsr] at hl
            rcases List.mem_cons.mp hl with rfl | hl'
            · rcases List.mem_cons.mp hc with rfl | hc'
              · exact ⟨hd1, hd2⟩
              · cases hc'
            · cases hl'
          · rw [hsr] at hl
            rcases List.mem_cons.mp hl with rfl | hl'
            · rcases List.mem_cons.mp hc with rfl | hc'
              · exact ⟨hd1, hd2⟩
              · exact ih rest hrest line (by rw [hsr]; exact List.mem_cons_self _ _) c hc'
            · exact ih rest hrest l (by rw [hsr]; exact List.mem_cons_of_mem _ hl') c hc

/-- A break-free prefix followed by `\n` is split off as the first line. -/
theorem splitLinesChars_append_newline (x rest : List Char)
    (hx : ∀ c ∈ x, c ≠ '\n' ∧ c ≠ '\r') :
    splitLinesChars (x ++ '\n' :: rest) = x :: splitLinesChars rest := by
  induction x with
  | nil => exact splitLines_nl rest
  | cons d x' ih =>
    have hd := hx d (List.mem_cons_self _ _)
    have hx' : ∀ c ∈ x', c ≠ '\n' ∧ c ≠ '\r' :=
      fun c hc => hx c (List.mem_cons_of_mem _ hc)
    rw [List.cons_append, splitLines_other d (x' ++ '\n' :: rest) hd.1 hd.2,
      ih hx']

/-- The character-level `"\n".join`. -/
def joinLinesChars : List (List Char) → List Char
  | [] => []
  | [x] => x
  | x :: xs => x ++ '\n' :: joinLinesChars xs

/-- Joining break-free lines with `\n` and terminating with `\n` splits
back to the same lines. -/
theorem splitLinesChars_joinLines : ∀ (L : List (List Char)), L ≠ [] →
    (∀ l ∈ L, ∀ c ∈ l, c ≠ '\n' ∧ c ≠ '\r') →
    splitLinesChars (joinLinesChars L ++ ['\n']) = L := by
  intro L
  induction L with
  | nil => intro h; cases h rfl
  | cons x xs ih =>
    intro _ h
    cases xs with
    | nil =>
      show splitLinesChars (x ++ '\n' :: []) = [x]
      rw [splitLinesChars_append_newline x [] (h x (List.mem_cons_self _ _))]
      rfl
    | cons y ys =>
      show splitLinesChars ((x ++ '\n' :: joinLinesChars (y :: ys)) ++ ['\n']) =
        x :: y :: ys
      rw [List.append_assoc, List.cons_append,
        splitLinesChars_append_newline x _ (h x (List.mem_cons_self _ _)),
        ih (by simp) (fun l hl => h l (List.mem_cons_of_mem _ hl))]

/-- Appending strings concatenates their character data. -/
theorem data_append (a b : String) : (a ++ b).data = a.data ++ b.data := rfl

/-- `String.mk` undoes `String.data`. -/
theorem mk_data (s : String) : String.mk s.data = s := rfl

/-- The character data of `joinNL`. -/
theorem joinNL_data : ∀ L : List String,
    (joinNL L).data = joinLinesChars (L.map String.data)
  | [] => rfl
  | [x] => rfl
  | x :: y :: ys => by
    show (x ++ "\n" ++ joinNL (y :: ys)).data =
      x.data ++ '\n' :: joinLinesChars ((y :: ys).map String.data)
    rw [data_append, data_append, joinNL_data (y :: ys)]
    simp

/-- String-level round trip: joining break-free, `\n`-free lines and
appending a final newline splits back to the same list of lines. -/
theorem splitlines_joinNL (L : List String) (hne : L ≠ [])
    (h : ∀ s ∈ L, ∀ c ∈ s.data, c ≠ '\n' ∧ c ≠ '\r') :
    splitlines (joinNL L ++ "\n") = L := by
  unfold splitlines
  rw [data_append, joinNL_data]
  have hnl : ("\n" : String).data = ['\n'] := rfl
  rw [hnl]
  rw [splitLinesChars_joinLines (L.map String.data) (by simpa using hne) ?hb]
  case hb =>
    intro l hl c hc
    obtain ⟨s, hs, rfl⟩ := List.mem_map.mp hl
    exact h s hs c hc
  rw [List.map_map]
  exact map_eq_self_of_mem _ L (fun s _ => mk_data s)

/-! ### Helper lemmas: gitignore idempotence -/

/-- Re-reading, stripping, and rebuilding the written `.gitignore` content
reproduces it, whenever the existing lines are already stripped and
break-free (as the lines obtained from `splitlines` + `strip` are). -/
theorem gitignoreContent_round (ex : List String)
    (hs : ∀ x ∈ ex, pyStrip x = x)
    (hb : ∀ x ∈ ex, ∀ c ∈ x.data, c ≠ '\n' ∧ c ≠ '\r') :
    gitignoreContent ((splitlines (gitignoreContent ex)).map pyStrip) =
      gitignoreContent ex := by
  have hgl : ∀ g ∈ gitignoreLines, (g != "") = true ∧ pyStrip g = g ∧
      ∀ c ∈ g.data, c ≠ '\n' ∧ c ≠ '\r' := by decide
  set raw := (ex ++ gitignoreLines).filter (· != "") with hraw
  set L := pySortedSet raw with hL
  have hmemL : ∀ x, x ∈ L ↔ x ∈ raw := fun x => pySortedSet_mem raw x
  have hrawmem : ∀ x, x ∈ raw ↔ ((x ∈ ex ∨ x ∈ gitignoreLines) ∧ (x != "") = true) := by
    intro x
    rw [hraw, List.mem_filter, List.mem_append]
  -- every member of L is stripped and break-free
  have hLfix : ∀ x ∈ L, pyStrip x = x := by
    intro x hx
    rcases (hrawmem x).mp ((hmemL x).mp hx) with ⟨hor, -⟩
    rcases hor with hex | hgl'
    · exact hs x hex
    · exact (hgl x hgl').2.1
  have hLbreak : ∀ x ∈ L, ∀ c ∈ x.data, c ≠ '\n' ∧ c ≠ '\r' := by
    intro x hx
    rcases (hrawmem x).mp ((hmemL x).mp hx) with ⟨hor, -⟩
    rcases hor with hex | hgl'
    · exact hb x hex
    · exact (hgl x hgl').2.2
  have hLne : L ≠ [] := by
    have : (".venv/" : String) ∈ L := by
      rw [hmemL, hrawmem]
      exact ⟨Or.inr (by decide), by decide⟩
    exact List.ne_nil_of_mem this
  -- the written content splits back to L
  have hsplit : splitlines (gitignoreContent ex) = L := by
    unfold gitignoreContent
    rw [← hraw, ← hL]
    exact splitlines_joinNL L hLne hLbreak
  rw [hsplit, map_eq_self_of_mem pyStrip L hLfix]
  -- rebuilding from L gives the same sorted set
  unfold gitignoreContent
  rw [← hraw]
  have : pySortedSet ((L ++ gitignoreLines).filter (· != "")) = pySortedSet raw := by
    apply pySortedSet_congr
    intro x
    rw [List.mem_filter, List.mem_append, hrawmem x, hmemL x, hrawmem x]
    constructor
    · rintro ⟨hor, hne⟩
      rcases hor with hraw' | hgl'
      · exact hraw'
      · exact ⟨Or.inr hgl', (hgl x hgl').1⟩
    · rintro ⟨hor, hne⟩
      exact ⟨Or.inl ⟨hor, hne⟩, hne⟩
  rw [this, ← hL]

/-- The `ensure_gitignore` write applied to its own output is a no-op. -/
theorem ensure_gitignore_idem (c : Option String) :
    ensure_gitignore (some (ensure_gitignore c)) = ensure_gitignore c := by
  cases c with
  | none =>
    exact gitignoreContent_round [] (by intro x hx; cases hx)
      (by intro x hx; cases hx)
  | some t =>
    apply gitignoreContent_round
    · intro x hx
      obtain ⟨y, _, rfl⟩ := List.mem_map.mp hx
      exact pyStrip_idem y
    · intro x hx ch hch
      obtain ⟨y, hy, rfl⟩ := List.mem_map.mp hx
      have hch' := pyStrip_data_subset y ch hch
      obtain ⟨lc, hlc, rfl⟩ := List.mem_map.mp hy
      exact splitLinesChars_no_break t.data.length t.data (Nat.le_refl _)
        lc hlc ch hch'

/-! ### Helper lemmas: settings and extensions idempotence -/

/-- The key list of the computed settings (independent of OS and root). -/
theorem vscodeSettings_keys (os : OS) (repoRoot : String) :
    (vscodeSettings os repoRoot).map Prod.fst =
      ["github.copilot.enable", "github.copilot.nextEditSuggestions.enabled",
       "editor.inlineSuggest.edits.allowCodeShifting",
       "github.copilot.inlineSuggest.enable", "chat.commandCenter.enabled",
       "chat.agent.enabled", "chat.mcp.enabled", "github.copilot.chat.enable",
       "github.copilot.chat.codesearch.enabled",
       "github.copilot.chat.editor.temporalContext.enabled",
       "github.copilot.chat.edits.suggestRelatedFilesFromGitHistory",
       "github.copilot.chat.newWorkspaceCreation.enabled",
       "github.copilot.chat.startDebugging.enabled",
       "github.copilot.chat.copilotDebugCommand.enabled",
       "github.copilot.chat.generateTests.codeLens",
       "github.copilot.chat.setupTests.enabled",
       "github.copilot.chat.codeGeneration.useInstructionFiles",
       "chat.promptFiles", "chat.modeFilesLocations",
       "workbench.settings.showAISearchToggle",
       "search.searchView.semanticSearchBehavior",
       "python.defaultInterpreterPath", "python.terminal.activateEnvironment",
       "terminal.integrated.env.windows", "terminal.integrated.env.osx",
       "terminal.integrated.env.linux"] := rfl

/-- The computed settings dict has no duplicate keys. -/
theorem vscodeSettings_keys_nodup (os : OS) (repoRoot : String) :
    ((vscodeSettings os repoRoot).map Prod.fst).Nodup := by
  rw [vscodeSettings_keys]
  decide

/-- The settings write applied to its own (parsed) output is a no-op. -/
theorem write_settings_idem (os : OS) (repoRoot : String)
    (c : Option (Option Json)) (out : Json)
    (h : write_settings c (vscodeSettings os repoRoot) = some out) :
    write_settings (some (some out)) (vscodeSettings os repoRoot) = some out := by
  have hnd := vscodeSettings_keys_nodup os repoRoot
  have hSS : pyDictMerge (vscodeSettings os repoRoot) (vscodeSettings os repoRoot)
      = vscodeSettings os repoRoot := by
    have hi := pyDictMerge_idem [] (vscodeSettings os repoRoot) hnd
    rwa [pyDictMerge_nil] at hi
  rcases c with _ | c
  · simp only [write_settings, Option.some.injEq] at h
    subst h
    show some (Json.obj (pyDictMerge (vscodeSettings os repoRoot)
      (vscodeSettings os repoRoot))) = _
    rw [hSS]
  · rcases c with _ | j
    · simp only [write_settings, Option.some.injEq] at h
      subst h
      rw [pyDictMerge_nil]
      show some (Json.obj (pyDictMerge (vscodeSettings os repoRoot)
        (vscodeSettings os repoRoot))) = _
      rw [hSS]
    · cases j with
      | obj e =>
        simp only [write_settings, Option.some.injEq] at h
        subst h
        show some (Json.obj (pyDictMerge (pyDictMerge e (vscodeSettings os repoRoot))
          (vscodeSettings os repoRoot))) = _
        rw [pyDictMerge_idem e _ hnd]
      | null => simp [write_settings] at h
      | bool b => simp [write_settings] at h
      | num n => simp [write_settings] at h
      | str s => simp [write_settings] at h
      | arr xs => simp [write_settings] at h

/-- Extracting an all-string array returns its strings. -/
theorem strListOf_map_str (l : List String) :
    pyIterStrs.strListOf (l.map Json.str) = some l := by
  induction l with
  | nil => rfl
  | cons a t ih => simp [pyIterStrs.strListOf, ih]

/-- Re-sorting the sorted union with the same payload absorbs it. -/
theorem pySortedSet_absorb (l p : List String) :
    pySortedSet (pySortedSet (l ++ p) ++ p) = pySortedSet (l ++ p) := by
  apply pySortedSet_congr
  intro x
  simp only [List.mem_append, pySortedSet_mem]
  tauto

/-- The shape of any successful `extensionsMerge` output. -/
theorem extensionsMerge_out (fs : List (String × Json)) (out : Json)
    (h : extensionsMerge fs = some out) :
    ∃ unw rcs, out = Json.obj
      [("recommendations",
          Json.arr ((pySortedSet (rcs ++ payloadRecommendations)).map Json.str)),
       ("unwantedRecommendations",
          Json.arr ((pySortedSet (unw ++ payloadUnwanted)).map Json.str))] := by
  unfold extensionsMerge at h
  cases h1 : pyIterStrs (pyGet fs "unwantedRecommendations" (Json.arr [])) with
  | none =>
    rw [h1] at h
    simp at h
  | some unw =>
    cases h2 : pyIterStrs (pyGet fs "recommendations" (Json.arr [])) with
    | none =>
      rw [h1, h2] at h
      simp at h
    | some rcs =>
      rw [h1, h2] at h
      simp only [Option.bind_eq_bind, Option.some_bind, Option.pure_def,
        Option.some.injEq] at h
      exact ⟨unw, rcs, h.symm⟩

/-- The extensions write applied to its own (parsed) output is a no-op. -/
theorem write_extensions_idem (c : Option (Option Json)) (out : Json)
    (h : write_extensions c = some out) :
    write_extensions (some (some out)) = some out := by
  have hm : ∃ fs, extensionsMerge fs = some out := by
    rcases c with _ | c
    · exact ⟨[], h⟩
    · rcases c with _ | j
      · exact ⟨[], h⟩
      · cases j with
        | obj fs => exact ⟨fs, h⟩
        | null => simp [write_extensions] at h
        | bool b => simp [write_extensions] at h
        | num n => simp [write_extensions] at h
        | str s => simp [write_extensions] at h
        | arr xs => simp [write_extensions] at h
  obtain ⟨fs, hfs⟩ := hm
  obtain ⟨unw, rcs, rfl⟩ := extensionsMerge_out fs out hfs
  show extensionsMerge
      [("recommendations",
          Json.arr ((pySortedSet (rcs ++ payloadRecommendations)).map Json.str)),
       ("unwantedRecommendations",
          Json.arr ((pySortedSet (unw ++ payloadUnwanted)).map Json.str))] = _
  unfold extensionsMerge
  have g1 : pyGet
      [("recommendations",
          Json.arr ((pySortedSet (rcs ++ payloadRecommendations)).map Json.str)),
       ("unwantedRecommendations",
          Json.arr ((pySortedSet (unw ++ payloadUnwanted)).map Json.str))]
      "unwantedRecommendations" (Json.arr []) =
      Json.arr ((pySortedSet (unw ++ payloadUnwanted)).map Json.str) := rfl
  have g2 : pyGet
      [("recommendations",
          Json.arr ((pySortedSet (rcs ++ payloadRecommendations)).map Json.str)),
       ("unwantedRecommendations",
          Json.arr ((pySortedSet (unw ++ payloadUnwanted)).map Json.str))]
      "recommendations" (Json.arr []) =
      Json.arr ((pySortedSet (rcs ++ payloadRecommendations)).map Json.str) := rfl
  rw [g1, g2]
  have p1 : pyIterStrs
      (Json.arr ((pySortedSet (unw ++ payloadUnwanted)).map Json.str)) =
      some (pySortedSet (unw ++ payloadUnwanted)) := strListOf_map_str _
  have p2 : pyIterStrs
      (Json.arr ((pySortedSet (rcs ++ payloadRecommendations)).map Json.str)) =
      some (pySortedSet (rcs ++ payloadRecommendations)) := strListOf_map_str _
  rw [p1, p2]
  simp only [Option.bind_eq_bind, Option.some_bind, Option.pure_def,
    Option.some.injEq]
  rw [pySortedSet_absorb, pySortedSet_absorb]

/-! ### Claim theorem: C2 (idempotence of the write steps) -/

/-- C2: every write step of the tool is idempotent on file contents: the
existence-guarded creations (`secrets.toml`, the copied configuration
file) leave existing files unchanged; the merge-based writes (`.gitignore`,
settings, extension recommendations) reproduce their own output; and the
unconditional writes (launch configuration, launcher scripts) always emit
the same bytes — so a second run reproduces the first run's contents. -/
theorem second_run_reproduces_first_contents (os : OS) (repoRoot : String) :
    (∀ c, (ensure_secrets (some (ensure_secrets c).1)).1 = (ensure_secrets c).1)
    ∧ (∀ srcC dstC r, copy_initial_conditions srcC dstC = .ok r →
        ∃ m, copy_initial_conditions srcC r.1 = .ok (r.1, m))
    ∧ (∀ c, ensure_gitignore (some (ensure_gitignore c)) = ensure_gitignore c)
    ∧ (∀ c out, write_settings c (vscodeSettings os repoRoot) = some out →
        write_settings (some (some out)) (vscodeSettings os repoRoot) = some out)
    ∧ (∀ c out, write_extensions c = some out →
        write_extensions (some (some out)) = some out)
    ∧ (∀ c, write_launch (some (some (write_launch c))) = write_launch c)
    ∧ (∀ c, write_launcher_sh repoRoot (some (write_launcher_sh repoRoot c)) =
        write_launcher_sh repoRoot c)
    ∧ (∀ c, write_launcher_ps1 repoRoot (some (write_launcher_ps1 repoRoot c)) =
        write_launcher_ps1 repoRoot c) := by
  refine ⟨?_, ?_, ensure_gitignore_idem, write_settings_idem os repoRoot,
    write_extensions_idem, fun _ => rfl, fun _ => rfl, fun _ => rfl⟩
  · intro c
    cases c <;> rfl
  · intro srcC dstC r hr
    rcases srcC with _ | s
    · injection hr with h'
      subst h'
      exact ⟨_, rfl⟩
    · rcases dstC with _ | d
      · injection hr with h'
        subst h'
        exact ⟨_, rfl⟩
      · injection hr with h'
        subst h'
        exact ⟨_, rfl⟩

/-- The extensions.json content emitted on a fresh repository. -/
def extDefaultW : Json :=
  Json.obj
    [("recommendations", Json.arr [Json.str "ms-python.python"]),
     ("unwantedRecommendations", Json.arr
       [Json.str "GitHub.copilot", Json.str "GitHub.copilot-chat"])]

/-- C2 witness: every step applied to its own output at concrete
contents. -/
theorem second_run_reproduces_first_contents_witness :
    (ensure_secrets (some (ensure_secrets none).1)).1 = (ensure_secrets none).1
    ∧ (∃ m, copy_initial_conditions (some "y: 2\n") (some "y: 2\n") =
        .ok (some "y: 2\n", m))
    ∧ ensure_gitignore (some (ensure_gitignore none)) = ensure_gitignore none
    ∧ write_settings (some (some (Json.obj (vscodeSettings OS.linux "/r"))))
        (vscodeSettings OS.linux "/r") =
        some (Json.obj (vscodeSettings OS.linux "/r"))
    ∧ write_extensions (some (some extDefaultW)) = some extDefaultW
    ∧ write_launch (some (some (write_launch none))) = write_launch none
    ∧ write_launcher_sh "/r" (some (write_launcher_sh "/r" none)) =
        write_launcher_sh "/r" none
    ∧ write_launcher_ps1 "/r" (some (write_launcher_ps1 "/r" none)) =
        write_launcher_ps1 "/r" none := by
  have h := second_run_reproduces_first_contents OS.linux "/r"
  refine ⟨h.1 none, ?_, h.2.2.1 none, ?_, ?_, h.2.2.2.2.2.1 none,
    h.2.2.2.2.2.2.1 none, h.2.2.2.2.2.2.2 none⟩
  · obtain ⟨m, hm⟩ := h.2.1 (some "y: 2\n") none
      (some "y: 2\n",
        "✅ Copied initial_conditions_default.yaml → initial_conditions.yaml") rfl
    exact ⟨m, hm⟩
  · exact h.2.2.2.1 none (Json.obj (vscodeSettings OS.linux "/r")) rfl
  · exact h.2.2.2.2.1 none extDefaultW rfl
